import Mathlib

set_option maxHeartbeats 1000000

namespace ShieldBattery

/-! Shallow embedding of the draw-command injection and buffer-arena
subsystem of `game/src/bw_scr` (`draw_inject.rs`, `bw_vector.rs`,
`draw_overlay.rs`). Machine integers are modelled as `Nat` with explicit
`% 2 ^ w` where wrapping matters; `f32` values are modelled as exact
rationals; raw pointers into the growable arenas are modelled as byte
offsets, with arena contents as total functions from byte offset to the
stored value. -/

/-- Single-cell store into a function-modelled buffer. -/
def store {α : Type} (f : Nat → α) (addr : Nat) (v : α) : Nat → α :=
  fun a => if a = addr then v else f a

/-- Sequential writes at a fixed byte stride, modelling the
pointer-walking writes of `VertexBufferAlloc::set_map` and
`VertexBufferAlloc::zero_after`. -/
def write_seq {α : Type} : (Nat → α) → Nat → Nat → List α → (Nat → α)
  | f, _, _, [] => f
  | f, start, stride, v :: rest => write_seq (store f start v) (start + stride) stride rest

/-- Model of `scr::BwVector` (data pointer, length, capacity); the data
pointer is abstracted as a total function from index to element. -/
structure RawVec (α : Type) where
  data : Nat → α
  length : Nat
  capacity : Nat

/-- `bw_vector_push` (bw_vector.rs:10): when full, double the capacity and
reallocate (the `ptr::copy_nonoverlapping` copy preserves the contents,
which the function-modelled `data` carries unchanged); then write the value
at index `length` and bump `length`. -/
def bw_vector_push {α : Type} (vec : RawVec α) (value : α) : RawVec α :=
  let vec1 := if vec.length ≥ vec.capacity then { vec with capacity := vec.capacity * 2 } else vec
  { vec1 with data := store vec1.data vec.length value, length := vec.length + 1 }

/-- Modelled from the spec: `bw_vector_reserve` is code of this repository
that is not under `src/` (only its callers `vertex_buf_grow` and
`index_buf_grow` are). Per spec §4.1, a grow step "reallocates/reserves the
backing storage to the new capacity" and per §8 growth is copy-on-grow:
"previously allocated regions' contents are preserved across growth". The
reserve therefore raises the capacity to the request and carries the
function-modelled contents unchanged (the copy). -/
def bw_vector_reserve {α : Type} (vec : RawVec α) (n : Nat) : RawVec α :=
  { vec with capacity := max vec.capacity n }

/-- Model of the fields of `scr::VertexBuffer` used by `draw_inject.rs`:
two growable arenas (vertex f32s and index u16s), each with a capacity in
elements, a bump-allocation byte offset, and a heap-backed flag. The vertex
arena stores a rational at the byte offset of each written f32; the index
arena stores a u16 value at the byte offset of each written u16. -/
structure VertexBuffer where
  buffer : RawVec ℚ
  buffer_size_u32s : Nat
  heap_allocated : Nat
  allocated_size_bytes : Nat
  index_buffer : RawVec Nat
  index_buf_size_u16s : Nat
  index_buf_heap_allocated : Nat
  index_buffer_allocated_bytes : Nat

/-- `vertex_buf_capacity_bytes` (draw_inject.rs:338). -/
def vertex_buf_capacity_bytes (vertex_buf : VertexBuffer) : Nat :=
  vertex_buf.buffer_size_u32s * 4

/-- `index_buf_capacity_bytes` (draw_inject.rs:361). -/
def index_buf_capacity_bytes (vertex_buf : VertexBuffer) : Nat :=
  vertex_buf.index_buf_size_u16s * 2

/-- `vertex_buf_grow` (draw_inject.rs:366): double the capacity, set
`heap_allocated = 1` (on every growth), reserve the backing vector to the
new capacity and set its length to the new capacity. -/
def vertex_buf_grow (vertex_buf : VertexBuffer) : VertexBuffer :=
  let new_capacity := vertex_buf.buffer_size_u32s * 2
  { vertex_buf with
    buffer_size_u32s := new_capacity
    heap_allocated := 1
    buffer := { bw_vector_reserve vertex_buf.buffer new_capacity with length := new_capacity } }

/-- `index_buf_grow` (draw_inject.rs:382). -/
def index_buf_grow (vertex_buf : VertexBuffer) : VertexBuffer :=
  let new_capacity := vertex_buf.index_buf_size_u16s * 2
  { vertex_buf with
    index_buf_size_u16s := new_capacity
    index_buf_heap_allocated := 1
    index_buffer :=
      { bw_vector_reserve vertex_buf.index_buffer new_capacity with length := new_capacity } }

/-- The `while end_offset > vertex_buf_capacity_bytes(..)` growth loop of
`allocate_vertices`, modelled with fuel; `none` models non-termination,
which the source loop exhibits exactly when the capacity is stuck at zero. -/
def vertex_grow_while (fuel : Nat) (vertex_buf : VertexBuffer) (end_offset : Nat) :
    Option VertexBuffer :=
  match fuel with
  | 0 =>
    if end_offset > vertex_buf_capacity_bytes vertex_buf then none else some vertex_buf
  | fuel' + 1 =>
    if end_offset > vertex_buf_capacity_bytes vertex_buf then
      vertex_grow_while fuel' (vertex_buf_grow vertex_buf) end_offset
    else some vertex_buf

/-- The growth loop of `allocate_indices`, modelled with fuel. -/
def index_grow_while (fuel : Nat) (vertex_buf : VertexBuffer) (end_offset : Nat) :
    Option VertexBuffer :=
  match fuel with
  | 0 =>
    if end_offset > index_buf_capacity_bytes vertex_buf then none else some vertex_buf
  | fuel' + 1 =>
    if end_offset > index_buf_capacity_bytes vertex_buf then
      index_grow_while fuel' (index_buf_grow vertex_buf) end_offset
    else some vertex_buf

/-- Model of `VertexBufferAlloc`: the view returned by an allocation, with
the data pointer abstracted as the byte offset into the arena plus the
element length. -/
structure VertexBufferAlloc where
  byte_offset : Nat
  length : Nat
deriving DecidableEq

/-- Outcome of an arena allocation. `badAlignment` models the fatal
`assert!` on the pre-growth allocated offset firing; `outOfFuel` models
the growth loop never terminating (zero capacity). Neither carries a
state: the operation terminates the process rather than proceed. -/
inductive AllocResult where
  | ok (vertex_buf : VertexBuffer) (alloc : VertexBufferAlloc)
  | badAlignment
  | outOfFuel

/-- `allocate_vertices` (draw_inject.rs:313): assert that the pre-growth
allocated offset is 4-byte aligned (`start_offset & 3 == 0`), grow while
the required end offset exceeds the capacity, commit the new allocated
offset only then, and return the view. `float_count` is the u32 product
`vertex_count * floats_per_vertex` (draw_inject.rs:318), which wraps at
`2 ^ 32` before being widened to usize; the later `float_count * 4` and
the offset addition are usize arithmetic. The loop fuel is instantiated at
`end_offset`, which suffices whenever the capacity is positive. -/
def allocate_vertices (vertex_buf : VertexBuffer) (floats_per_vertex vertex_count : Nat) :
    AllocResult :=
  let float_count := vertex_count * floats_per_vertex % 2 ^ 32
  let start_offset := vertex_buf.allocated_size_bytes
  if start_offset &&& 3 ≠ 0 then .badAlignment
  else
    let end_offset := start_offset + float_count * 4
    match vertex_grow_while end_offset vertex_buf end_offset with
    | none => .outOfFuel
    | some vb =>
      .ok { vb with allocated_size_bytes := end_offset }
        { byte_offset := start_offset, length := float_count }

/-- `allocate_indices` (draw_inject.rs:342): assert that the pre-growth
index offset is 2-byte aligned (`start_offset & 1 == 0`), grow while
needed, commit, and return the view of `count` u16 elements. -/
def allocate_indices (vertex_buf : VertexBuffer) (count : Nat) : AllocResult :=
  let start_offset := vertex_buf.index_buffer_allocated_bytes
  if start_offset &&& 1 ≠ 0 then .badAlignment
  else
    let end_offset := start_offset + count * 2
    match index_grow_while end_offset vertex_buf end_offset with
    | none => .outOfFuel
    | some vb =>
      .ok { vb with index_buffer_allocated_bytes := end_offset }
        { byte_offset := start_offset, length := count }

/-- egui `epaint::Vertex`: position, uv, packed RGBA color (a u32 in
little-endian byte order). -/
structure Vertex where
  pos : ℚ × ℚ
  uv : ℚ × ℚ
  color : Nat

/-- `RenderTarget` (draw_inject.rs:60): id plus precomputed reciprocal
width/height of the host render target. -/
structure RenderTarget where
  id : Nat
  w_recip : ℚ
  h_recip : ℚ

/-- `ColoredVertex` (draw_inject.rs:80). -/
structure ColoredVertex where
  pos : ℚ × ℚ
  texture : ℚ × ℚ
  color : Nat

/-- `egui_vertex_to_colored_vertex` (draw_inject.rs:119): egui gives the
position in `0.0 .. screen_points` with top-left origin, BW wants
`0.0 .. 1.0` with bottom-left origin. -/
def egui_vertex_to_colored_vertex (render_target : RenderTarget) (vertex : Vertex) :
    ColoredVertex :=
  { pos := (vertex.pos.1 * render_target.w_recip, 1 - vertex.pos.2 * render_target.h_recip)
    texture := (vertex.uv.1, vertex.uv.2)
    color := vertex.color }

/-- The `bytemuck::cast::<ColoredVertex, [f32; 5]>` view of a colored
vertex. The reinterpretation of the color u32 as an f32 bit pattern is
abstracted as the embedding of the u32 value into ℚ. -/
def ColoredVertex.floats (c : ColoredVertex) : List ℚ :=
  [c.pos.1, c.pos.2, c.texture.1, c.texture.2, (c.color : ℚ)]

/-- Model of `scr::DrawCommand` with the fields written by
`draw_egui_mesh_main`; the 7-slot `texture_ids` array and the 20-float
`shader_constants` array are modelled as functions from slot index. -/
structure DrawCommand where
  render_target_id : Nat
  is_hd : Nat
  texture_ids : Nat → Nat
  draw_mode : Nat
  shader_id : Nat
  vertex_buffer_offset_bytes : Nat
  index_buffer_offset_bytes : Nat
  allocated_vertex_count : Nat
  used_vertex_count : Nat
  unk3c : Nat
  blend_mode : Nat
  shader_constants : Nat → ℚ

/-- `scr::DrawSort`: one entry of the host's layer-sorted command index.
The pointer to the command is abstracted as the command's slot index. -/
structure DrawSort where
  layer : Nat
  index : Nat
  command : Nat

/-- Model of `scr::DrawCommands`: the fixed-capacity command array (its
length is `capacity`, its contents a function from slot), the running u16
count, and the growable draw-sort vector. -/
structure DrawCommands where
  draw_command_count : Nat
  capacity : Nat
  commands : Nat → DrawCommand
  draw_sort_vector : RawVec DrawSort

/-- The host state written by the emitter: the vertex/index arenas and the
draw-command list (the `bw.vertex_buf` and `bw.commands` of `BwVars`). -/
structure EmitState where
  vertex_buf : VertexBuffer
  commands : DrawCommands

/-- `new_draw_command` (draw_inject.rs:292): fail (`None`) if the
fixed-capacity command list is already full; otherwise bump the (u16)
count, append a `DrawSort` entry `(layer, sort length as u16, command)`
for the new slot to the draw-sort vector, and return the slot. -/
def new_draw_command (commands : DrawCommands) (layer : Nat) :
    Option (DrawCommands × Nat) :=
  let index := commands.draw_command_count
  if index ≥ commands.capacity then none
  else
    let commands1 := { commands with draw_command_count := (index + 1) % 2 ^ 16 }
    let draw_sort := commands1.draw_sort_vector
    let draw_sort_index := draw_sort.length % 2 ^ 16
    let commands2 := { commands1 with
      draw_sort_vector :=
        bw_vector_push draw_sort
          { layer := layer, index := draw_sort_index, command := index } }
    some (commands2, index)

/-- `align4` (draw_inject.rs:183): `(val.wrapping_sub(1) | 3).wrapping_add(1)`
on u32. -/
def align4 (val : Nat) : Nat :=
  (((val + (2 ^ 32 - 1)) % 2 ^ 32 ||| 3) + 1) % 2 ^ 32

/-- `align6` (draw_inject.rs:187): round up to a multiple of 6. -/
def align6 (val : Nat) : Nat :=
  let rem := val % 6
  if rem = 0 then val else val + (6 - rem)

/-- The vertex write of `draw_egui_mesh_main`
(`vertex_alloc.set_map(vertices.len(), ..)`): for each vertex in turn,
write its five f32s at byte stride 4, advancing 5 floats (20 bytes) per
vertex. -/
def vertex_set_map (render_target : RenderTarget) :
    (Nat → ℚ) → Nat → List Vertex → (Nat → ℚ)
  | data, _, [] => data
  | data, start, v :: rest =>
    vertex_set_map render_target
      (write_seq data start 4 (egui_vertex_to_colored_vertex render_target v).floats)
      (start + 20) rest

/-- The index write of `draw_egui_mesh_main`
(`index_alloc.set_map(indices.len(), ..)`): each index is truncated
`as u16` and written at byte stride 2. -/
def index_set_map (data : Nat → Nat) (start : Nat) (indices : List Nat) : Nat → Nat :=
  write_seq data start 2 (indices.map (fun i => i % 2 ^ 16))

/-- `VertexBufferAlloc::zero_after` (draw_inject.rs:107) on the u16 index
view: zero every element slot from `pos` up to the allocation length. -/
def zero_after (data : Nat → Nat) (byte_offset length pos : Nat) : Nat → Nat :=
  if pos < length then
    write_seq data (byte_offset + 2 * pos) 2 (List.replicate (length - pos) 0)
  else data

/-- Outcome of `draw_egui_mesh_main`. `outOfDrawCommands` carries the
state reached when `new_draw_command` failed (the arena allocations made
before it are kept); `fatal` models a fired `assert!` or a diverging
growth loop, after which no state is observable. -/
inductive MainResult where
  | ok (st : EmitState)
  | outOfDrawCommands (st : EmitState)
  | fatal

/-- The population of the `DrawCommand` record by `draw_egui_mesh_main`
(draw_inject.rs:256-280): indexed-quad draw mode, `colored_frag` shader,
buffer offsets and counts from the allocations, texture binding slot 0,
opaque-white multiply color in shader constants 0-3, and the render
target's reciprocal width/height in constants 0xe/0xf. -/
def populate_draw_command (render_target : RenderTarget) (texture : Nat)
    (vertex_alloc index_alloc : VertexBufferAlloc) (vertex_count : Nat) : DrawCommand :=
  let command0 : DrawCommand :=
    { render_target_id := render_target.id
      is_hd := 0
      texture_ids := fun _ => 0
      draw_mode := 1
      shader_id := 4
      vertex_buffer_offset_bytes := vertex_alloc.byte_offset
      index_buffer_offset_bytes := index_alloc.byte_offset
      allocated_vertex_count := vertex_count
      used_vertex_count := vertex_count
      unk3c := 0xffff
      blend_mode := 0
      shader_constants := fun _ => 0 }
  let command1 := { command0 with
    texture_ids := store command0.texture_ids 0 texture }
  let consts2 :=
    store (store (store (store command1.shader_constants 0x0 (1 : ℚ)) 0x1 1) 0x2 1)
      0x3 1
  let command2 := { command1 with shader_constants := consts2 }
  let consts3 :=
    store (store command2.shader_constants 0xe render_target.w_recip) 0xf
      render_target.h_recip
  { command2 with shader_constants := consts3 }

/-- `draw_egui_mesh_main` (draw_inject.rs:229): compute the quad-padded
vertex/index counts, allocate both arenas, write the real vertices and
indices, zero the index padding, request a command slot (failing with
`OutOfDrawCommands` if the list is full), and populate the command. -/
def draw_egui_mesh_main (layer : Nat) (indices : List Nat) (vertices : List Vertex)
    (texture : Nat) (st : EmitState) (render_target : RenderTarget) : MainResult :=
  let init_vertex_count := align4 (vertices.length % 2 ^ 32)
  let init_index_count := align6 (indices.length % 2 ^ 32)
  let quad_count := max (init_vertex_count / 4) (init_index_count / 6)
  let vertex_count := quad_count * 4
  let index_count := quad_count * 6
  match allocate_vertices st.vertex_buf 8 vertex_count with
  | .badAlignment => .fatal
  | .outOfFuel => .fatal
  | .ok vb1 vertex_alloc =>
    match allocate_indices vb1 index_count with
    | .badAlignment => .fatal
    | .outOfFuel => .fatal
    | .ok vb2 index_alloc =>
      if vertices.length * 5 ≤ vertex_alloc.length then
        let data3 := vertex_set_map render_target vb2.buffer.data vertex_alloc.byte_offset vertices
        let vb3 := { vb2 with buffer := { vb2.buffer with data := data3 } }
        if indices.length * 1 ≤ index_alloc.length then
          let data4 := index_set_map vb3.index_buffer.data index_alloc.byte_offset indices
          let vb4 := { vb3 with index_buffer := { vb3.index_buffer with data := data4 } }
          let data5 :=
            zero_after vb4.index_buffer.data index_alloc.byte_offset index_alloc.length
              indices.length
          let vb5 := { vb4 with index_buffer := { vb4.index_buffer with data := data5 } }
          match new_draw_command st.commands layer with
          | none => .outOfDrawCommands { st with vertex_buf := vb5 }
          | some (commands1, slot) =>
            let command3 :=
              populate_draw_command render_target texture vertex_alloc index_alloc vertex_count
            .ok { vertex_buf := vb5
                  commands := { commands1 with
                    commands := store commands1.commands slot command3 } }
        else .fatal
      else .fatal

/-- `DrawError` (draw_inject.rs:48). -/
inductive DrawError where
  | outOfDrawCommands
  | invalidTexture (id : Nat)
deriving DecidableEq

/-- Outcome of `draw_egui_mesh`: a recoverable `DrawError` carries the
state at the failure point. -/
inductive MeshResult where
  | ok (st : EmitState)
  | err (e : DrawError) (st : EmitState)
  | fatal

/-- A sub-mesh produced by egui's `Mesh::split_to_u16`. -/
structure SubMesh where
  indices : List Nat
  vertices : List Vertex

/-- egui `epaint::Mesh`. `split_to_u16` is egui-library code outside this
repository; its output is carried as the `split` field and universally
quantified in the theorems about splitting. -/
structure Mesh where
  texture_id : Nat
  indices : List Nat
  vertices : List Vertex
  split : List SubMesh

/-- The `for mesh in mesh.split_to_u16()` loop of `draw_egui_mesh`
(draw_inject.rs:215): the `?` operator propagates the first failing
sub-mesh's error, abandoning the remaining sub-meshes of the split. -/
def draw_mesh_list (layer texture : Nat) (render_target : RenderTarget) :
    List SubMesh → EmitState → MeshResult
  | [], st => .ok st
  | m :: rest, st =>
    match draw_egui_mesh_main layer m.indices m.vertices texture st render_target with
    | .ok st1 => draw_mesh_list layer texture render_target rest st1
    | .outOfDrawCommands st1 => .err .outOfDrawCommands st1
    | .fatal => .fatal

/-- `RenderState.textures`: the HashMap from egui texture id to
`OwnedBwTexture`, abstracted as a partial map from texture id to the
native texture handle. -/
def Textures : Type := Nat → Option Nat

/-- `draw_egui_mesh` (draw_inject.rs:196): resolve the texture id (failing
with `InvalidTexture` when absent, before anything is allocated); draw the
mesh directly when its vertex count is below 0x10000, else draw each
sub-mesh of the split, `?`-propagating the first failure. -/
def draw_egui_mesh (layer : Nat) (textures : Textures) (mesh : Mesh)
    (st : EmitState) (render_target : RenderTarget) : MeshResult :=
  match textures mesh.texture_id with
  | none => .err (.invalidTexture mesh.texture_id) st
  | some texture =>
    if mesh.vertices.length < 0x10000 then
      match draw_egui_mesh_main layer mesh.indices mesh.vertices texture st render_target with
      | .ok st1 => .ok st1
      | .outOfDrawCommands st1 => .err .outOfDrawCommands st1
      | .fatal => .fatal
    else
      draw_mesh_list layer texture render_target mesh.split st

/-- `epaint::Primitive` as consumed by `add_overlays`. -/
inductive Primitive where
  | mesh (m : Mesh)
  | callback

/-- The per-primitive loop of `add_overlays` (draw_inject.rs:146) with its
fixed `layer = 0x17`: a mesh whose draw fails recoverably is logged
(`warn_once!`) and the loop continues with the next primitive; paint
callbacks are logged and skipped. The `update_textures` / `free_textures`
calls around the loop touch only the texture cache (modelled separately
with `OwnedBwTexture`), not the emitter state threaded here. -/
def add_overlays (textures : Textures) (render_target : RenderTarget) :
    List Primitive → EmitState → Option EmitState
  | [], st => some st
  | p :: rest, st =>
    match p with
    | .callback => add_overlays textures render_target rest st
    | .mesh m =>
      match draw_egui_mesh 0x17 textures m st render_target with
      | .ok st1 => add_overlays textures render_target rest st1
      | .err _ st1 => add_overlays textures render_target rest st1
      | .fatal => none

/-- The spec-side rendition of the split step of `emit_mesh` (spec §4.4
step 2), for the refinement comparison of claim C1: sub-meshes "each
processed independently through the remaining steps (partial failures
inside a split are independent — one failing sub-mesh does not prevent the
rest from being emitted)". -/
def draw_mesh_list_independent (layer texture : Nat) (render_target : RenderTarget) :
    List SubMesh → EmitState → MeshResult
  | [], st => .ok st
  | m :: rest, st =>
    match draw_egui_mesh_main layer m.indices m.vertices texture st render_target with
    | .ok st1 => draw_mesh_list_independent layer texture render_target rest st1
    | .outOfDrawCommands st1 => draw_mesh_list_independent layer texture render_target rest st1
    | .fatal => .fatal

/-- The per-primitive post-state: the state after processing one primitive
of the frame, whatever the recoverable outcome; `none` on a fatal failure. -/
def prim_step (textures : Textures) (render_target : RenderTarget)
    (st : EmitState) (p : Primitive) : Option EmitState :=
  match p with
  | .callback => some st
  | .mesh m =>
    match draw_egui_mesh 0x17 textures m st render_target with
    | .ok st1 => some st1
    | .err _ st1 => some st1
    | .fatal => none

/-- `OwnedBwTexture` (draw_inject.rs:392): a host texture handle together
with the creation parameters reused for updates; the owning renderer
pointer is abstracted away. -/
structure OwnedBwTexture where
  texture : Nat
  filtering : Nat
  format : Nat
  wrap_mode : Nat
deriving DecidableEq

/-- `OwnedBwTexture::new_rgba` (draw_inject.rs:401). The host
`create_texture` vtable call is abstracted by its result `create_result`
(`none` models the null-handle failure sentinel); the returned `Bool`
records whether that host entry point was invoked at all. The payload
length check is against `4 * (size.0 * size.1)` with the u32 product
wrapping. -/
def OwnedBwTexture.new_rgba (create_result : Option Nat) (size : Nat × Nat)
    (data : List Nat) (bilinear : Bool) : Option OwnedBwTexture × Bool :=
  let format := 0
  let filtering := if bilinear then 1 else 0
  let wrap_mode := 0
  if data.length ≠ 4 * (size.1 * size.2 % 2 ^ 32) then (none, false)
  else
    match create_result with
    | none => (none, true)
    | some texture =>
      (some { texture := texture, filtering := filtering, format := format,
              wrap_mode := wrap_mode }, true)

/-- `OwnedBwTexture::update` (draw_inject.rs:442): returns whether the
host `update_texture` entry point was invoked; the payload-size check
guards the call (`warn!` and return on mismatch). -/
def OwnedBwTexture.update (tex : OwnedBwTexture) (data : List Nat)
    (pos size : Nat × Nat) : Bool :=
  if data.length ≠ 4 * (size.1 * size.2 % 2 ^ 32) then false else true

/-- `OverlayState::new` (draw_overlay.rs:69) initialises `window_size` to
`(100, 100)`. -/
def overlay_new_window_size : Nat × Nat := (100, 100)

/-- Decode one 16-bit field of an lparam bit pattern as a signed `i16`. -/
def decode_i16 (n : Nat) : Int :=
  if n % 2 ^ 16 < 2 ^ 15 then ((n % 2 ^ 16 : Nat) : Int)
  else ((n % 2 ^ 16 : Nat) : Int) - 2 ^ 16

/-- Window messages as far as `window_size` is concerned. -/
inductive WinMsg where
  | wmSize (lparam : Nat)
  | otherMsg

/-- The `WM_SIZE` arm of `OverlayState::window_proc` (draw_overlay.rs:219)
restricted to its effect on `window_size`: decode width and height from
the low/high 16 bits of lparam as `i16`, `try_into` the u32 field type
(which fails on negatives), and ignore the message if either is zero. No
other message arm writes `window_size`. -/
def window_proc_size (size : Nat × Nat) (msg : WinMsg) : Nat × Nat :=
  match msg with
  | .wmSize lparam =>
    let w := decode_i16 lparam
    let h := decode_i16 (lparam / 2 ^ 16)
    if 0 ≤ w ∧ 0 ≤ h then
      if w ≠ 0 ∧ h ≠ 0 then (w.toNat, h.toNat) else size
    else size
  | .otherMsg => size

/-- `window_pos_to_egui` (draw_overlay.rs:329), the f32 arithmetic carried
out exactly over ℚ. -/
def window_pos_to_egui (window_size screen_size : Nat × Nat) (x y : Int) : ℚ × ℚ :=
  let window_w : ℚ := window_size.1
  let window_h : ℚ := window_size.2
  let screen_w : ℚ := screen_size.1
  let screen_h : ℚ := screen_size.2
  let screen_window_r := (screen_w / screen_h) / (window_w / window_h)
  if |screen_window_r - 1| < 1 / 1000 then
    ((x : ℚ) / window_w * screen_w, (y : ℚ) / window_h * screen_h)
  else if screen_window_r < 1 then
    let x_offset := window_w * (1 - screen_window_r) * (1 / 2)
    let x_div := window_w * screen_window_r
    (((x : ℚ) - x_offset) / x_div * screen_w, (y : ℚ) / window_h * screen_h)
  else
    let r := screen_window_r⁻¹
    let y_offset := window_h * (1 - r) * (1 / 2)
    let y_div := window_h * r
    ((x : ℚ) / window_w * screen_w, ((y : ℚ) - y_offset) / y_div * screen_h)

/-- The window-to-UI mapping as claim C8 states it, for the refinement
comparison: `ratio = (screen_w/screen_h) / (window_w/window_h)`; near-1
ratio gives a direct linear scale `(x*screen_w/window_w,
y*screen_h/window_h)`; `ratio < 1` offsets the horizontal axis by
`window_w*(1-ratio)/2` and divides by `window_w*ratio` before scaling by
`screen_w`; otherwise the vertical axis is offset by
`window_h*(1-1/ratio)/2` and divided by `window_h*(1/ratio)` before
scaling by `screen_h`. -/
def spec_window_to_ui (window_size screen_size : Nat × Nat) (x y : Int) : ℚ × ℚ :=
  let window_w : ℚ := window_size.1
  let window_h : ℚ := window_size.2
  let screen_w : ℚ := screen_size.1
  let screen_h : ℚ := screen_size.2
  let ratio := (screen_w / screen_h) / (window_w / window_h)
  if |ratio - 1| < 1 / 1000 then
    ((x : ℚ) * screen_w / window_w, (y : ℚ) * screen_h / window_h)
  else if ratio < 1 then
    (((x : ℚ) - window_w * (1 - ratio) / 2) / (window_w * ratio) * screen_w,
      (y : ℚ) * screen_h / window_h)
  else
    ((x : ℚ) * screen_w / window_w,
      ((y : ℚ) - window_h * (1 - ratio⁻¹) / 2) / (window_h * ratio⁻¹) * screen_h)

/-- `max(ceil(v/4), ceil(i/6))`: the quad count as the spec states it. -/
def ceil_quad_count (v i : Nat) : Nat :=
  max ((v + 3) / 4) ((i + 5) / 6)

theorem store_same {α : Type} (f : Nat → α) (a : Nat) (v : α) : store f a v a = v := by
  simp [store]

theorem store_other {α : Type} (f : Nat → α) (a : Nat) (v : α) (b : Nat) (h : b ≠ a) :
    store f a v b = f b := by
  simp [store, h]

theorem write_seq_below {α : Type} (vs : List α) :
    ∀ (f : Nat → α) (start stride a : Nat), a < start →
      write_seq f start stride vs a = f a := by
  induction vs with
  | nil => intro f start stride a _; rfl
  | cons v rest ih =>
    intro f start stride a h
    simp only [write_seq]
    rw [ih _ _ _ _ (by omega), store_other _ _ _ _ (by omega)]

theorem write_seq_get {α : Type} (vs : List α) :
    ∀ (f : Nat → α) (start stride j : Nat) (hs : 0 < stride) (hj : j < vs.length),
      write_seq f start stride vs (start + stride * j) = vs.get ⟨j, hj⟩ := by
  induction vs with
  | nil => intro f start stride j _ hj; simp at hj
  | cons v rest ih =>
    intro f start stride j hs hj
    match j with
    | 0 =>
      simp only [write_seq, Nat.mul_zero, Nat.add_zero]
      rw [write_seq_below _ _ _ _ _ (by omega), store_same]
      rfl
    | k + 1 =>
      simp only [write_seq]
      have haddr : start + stride * (k + 1) = (start + stride) + stride * k := by ring
      rw [haddr, ih _ _ _ k hs (by simpa using hj)]
      rfl

theorem testBit_three (j : Nat) : Nat.testBit 3 j = decide (j < 2) := by
  match j with
  | 0 => decide
  | 1 => decide
  | k + 2 =>
    have hlt : (3 : Nat) < 2 ^ (k + 2) := by
      have h4 : (2 : Nat) ^ 2 ≤ 2 ^ (k + 2) :=
        Nat.pow_le_pow_right (by norm_num) (by omega)
      omega
    have hnot : ¬ (k + 2 < 2) := by omega
    rw [Nat.testBit_lt_two_pow hlt]
    simp [hnot]

theorem lor_three (n : Nat) : n ||| 3 = 4 * (n / 4) + 3 := by
  apply Nat.eq_of_testBit_eq
  intro j
  have hrhs : 4 * (n / 4) + 3 = 2 ^ 2 * (n / 4) + 3 := by norm_num
  rw [Nat.testBit_lor, hrhs,
    Nat.testBit_mul_pow_two_add _ (by norm_num : (3 : Nat) < 2 ^ 2) j]
  by_cases hj : j < 2
  · simp [testBit_three, hj]
  · have hmod : n % 4 < 2 ^ 2 := by omega
    have hsplit : n = 2 ^ 2 * (n / 4) + n % 4 := by omega
    have hn : Nat.testBit n j = Nat.testBit (n / 4) (j - 2) := by
      conv_lhs => rw [hsplit]
      rw [Nat.testBit_mul_pow_two_add _ hmod j]
      simp [hj]
    rw [testBit_three, hn]
    simp [hj]

theorem align4_eq (v : Nat) (h : v ≤ 2 ^ 32 - 4) : align4 v = 4 * ((v + 3) / 4) := by
  match v with
  | 0 => decide
  | w + 1 =>
    have h1 : (w + 1 + (2 ^ 32 - 1)) % 2 ^ 32 = w := by omega
    rw [align4, h1, lor_three]
    omega

theorem align6_eq (v : Nat) : align6 v = 6 * ((v + 5) / 6) := by
  simp only [align6]
  split <;> omega

theorem vertex_grow_while_spec : ∀ (fuel : Nat) (vb : VertexBuffer) (end_offset : Nat),
    0 < vb.buffer_size_u32s →
    end_offset ≤ vertex_buf_capacity_bytes vb + fuel →
    ∃ vb', vertex_grow_while fuel vb end_offset = some vb' ∧
      end_offset ≤ vertex_buf_capacity_bytes vb' ∧
      vb'.allocated_size_bytes = vb.allocated_size_bytes ∧
      vb'.buffer.data = vb.buffer.data ∧
      vb'.index_buffer = vb.index_buffer ∧
      vb'.index_buf_size_u16s = vb.index_buf_size_u16s ∧
      vb'.index_buf_heap_allocated = vb.index_buf_heap_allocated ∧
      vb'.index_buffer_allocated_bytes = vb.index_buffer_allocated_bytes ∧
      0 < vb'.buffer_size_u32s := by
  intro fuel
  induction fuel with
  | zero =>
    intro vb end_offset hcap hfuel
    refine ⟨vb, ?_, by omega, rfl, rfl, rfl, rfl, rfl, rfl, hcap⟩
    simp only [vertex_grow_while]
    rw [if_neg (by omega)]
  | succ fuel ih =>
    intro vb end_offset hcap hfuel
    by_cases hgt : end_offset > vertex_buf_capacity_bytes vb
    · have hcapbytes : vertex_buf_capacity_bytes vb = vb.buffer_size_u32s * 4 := rfl
      have hgrowcap :
          vertex_buf_capacity_bytes (vertex_buf_grow vb) = vb.buffer_size_u32s * 2 * 4 := rfl
      obtain ⟨vb', heq, h1, h2, h3, h4, h5, h6, h7, h8⟩ :=
        ih (vertex_buf_grow vb) end_offset (by simp [vertex_buf_grow]; omega)
          (by rw [hgrowcap]; omega)
      refine ⟨vb', ?_, h1, h2, h3, h4, h5, h6, h7, h8⟩
      simp only [vertex_grow_while]
      rw [if_pos hgt]
      exact heq
    · refine ⟨vb, ?_, by omega, rfl, rfl, rfl, rfl, rfl, rfl, hcap⟩
      simp only [vertex_grow_while]
      rw [if_neg hgt]

theorem index_grow_while_spec : ∀ (fuel : Nat) (vb : VertexBuffer) (end_offset : Nat),
    0 < vb.index_buf_size_u16s →
    end_offset ≤ index_buf_capacity_bytes vb + fuel →
    ∃ vb', index_grow_while fuel vb end_offset = some vb' ∧
      end_offset ≤ index_buf_capacity_bytes vb' ∧
      vb'.index_buffer_allocated_bytes = vb.index_buffer_allocated_bytes ∧
      vb'.index_buffer.data = vb.index_buffer.data ∧
      vb'.buffer = vb.buffer ∧
      vb'.buffer_size_u32s = vb.buffer_size_u32s ∧
      vb'.heap_allocated = vb.heap_allocated ∧
      vb'.allocated_size_bytes = vb.allocated_size_bytes ∧
      0 < vb'.index_buf_size_u16s := by
  intro fuel
  induction fuel with
  | zero =>
    intro vb end_offset hcap hfuel
    refine ⟨vb, ?_, by omega, rfl, rfl, rfl, rfl, rfl, rfl, hcap⟩
    simp only [index_grow_while]
    rw [if_neg (by omega)]
  | succ fuel ih =>
    intro vb end_offset hcap hfuel
    by_cases hgt : end_offset > index_buf_capacity_bytes vb
    · have hgrowcap :
          index_buf_capacity_bytes (index_buf_grow vb) = vb.index_buf_size_u16s * 2 * 2 := rfl
      have hcapbytes : index_buf_capacity_bytes vb = vb.index_buf_size_u16s * 2 := rfl
      obtain ⟨vb', heq, h1, h2, h3, h4, h5, h6, h7, h8⟩ :=
        ih (index_buf_grow vb) end_offset (by simp [index_buf_grow]; omega)
          (by rw [hgrowcap]; omega)
      refine ⟨vb', ?_, h1, h2, h3, h4, h5, h6, h7, h8⟩
      simp only [index_grow_while]
      rw [if_pos hgt]
      exact heq
    · refine ⟨vb, ?_, by omega, rfl, rfl, rfl, rfl, rfl, rfl, hcap⟩
      simp only [index_grow_while]
      rw [if_neg hgt]

theorem and_three_eq_mod (n : Nat) : n &&& 3 = n % 4 := by
  have := Nat.and_pow_two_sub_one_eq_mod n 2
  norm_num at this
  exact this

theorem and_one_eq_mod (n : Nat) : n &&& 1 = n % 2 :=
  Nat.and_one_is_mod n

theorem allocate_vertices_spec (vb : VertexBuffer) (floats_per_vertex vertex_count : Nat)
    (hal : vb.allocated_size_bytes % 4 = 0) (hcap : 0 < vb.buffer_size_u32s) :
    ∃ vb', allocate_vertices vb floats_per_vertex vertex_count =
        .ok vb' ⟨vb.allocated_size_bytes, vertex_count * floats_per_vertex % 2 ^ 32⟩ ∧
      vb'.allocated_size_bytes =
        vb.allocated_size_bytes + vertex_count * floats_per_vertex % 2 ^ 32 * 4 ∧
      vb'.allocated_size_bytes ≤ vertex_buf_capacity_bytes vb' ∧
      vb'.buffer.data = vb.buffer.data ∧
      vb'.index_buffer = vb.index_buffer ∧
      vb'.index_buf_size_u16s = vb.index_buf_size_u16s ∧
      vb'.index_buf_heap_allocated = vb.index_buf_heap_allocated ∧
      vb'.index_buffer_allocated_bytes = vb.index_buffer_allocated_bytes ∧
      vb'.allocated_size_bytes % 4 = 0 := by
  obtain ⟨vbg, heq, h1, h2, h3, h4, h5, h6, h7, h8⟩ :=
    vertex_grow_while_spec
      (vb.allocated_size_bytes + vertex_count * floats_per_vertex % 2 ^ 32 * 4) vb
      (vb.allocated_size_bytes + vertex_count * floats_per_vertex % 2 ^ 32 * 4) hcap
      (Nat.le_add_left _ _)
  refine ⟨{ vbg with allocated_size_bytes :=
    vb.allocated_size_bytes + vertex_count * floats_per_vertex % 2 ^ 32 * 4 }, ?_, rfl, ?_,
    h3, h4, h5, h6, h7, ?_⟩
  · simp only [allocate_vertices]
    rw [if_neg (by rw [and_three_eq_mod]; omega), heq]
  · simpa [vertex_buf_capacity_bytes] using h1
  · show (vb.allocated_size_bytes + vertex_count * floats_per_vertex % 2 ^ 32 * 4) % 4 = 0
    omega

theorem allocate_indices_spec (vb : VertexBuffer) (count : Nat)
    (hal : vb.index_buffer_allocated_bytes % 2 = 0) (hcap : 0 < vb.index_buf_size_u16s) :
    ∃ vb', allocate_indices vb count =
        .ok vb' ⟨vb.index_buffer_allocated_bytes, count⟩ ∧
      vb'.index_buffer_allocated_bytes = vb.index_buffer_allocated_bytes + count * 2 ∧
      vb'.index_buffer_allocated_bytes ≤ index_buf_capacity_bytes vb' ∧
      vb'.index_buffer.data = vb.index_buffer.data ∧
      vb'.buffer = vb.buffer ∧
      vb'.buffer_size_u32s = vb.buffer_size_u32s ∧
      vb'.heap_allocated = vb.heap_allocated ∧
      vb'.allocated_size_bytes = vb.allocated_size_bytes ∧
      vb'.index_buffer_allocated_bytes % 2 = 0 := by
  obtain ⟨vbg, heq, h1, h2, h3, h4, h5, h6, h7, h8⟩ :=
    index_grow_while_spec (vb.index_buffer_allocated_bytes + count * 2) vb
      (vb.index_buffer_allocated_bytes + count * 2) hcap (Nat.le_add_left _ _)
  refine ⟨{ vbg with index_buffer_allocated_bytes :=
    vb.index_buffer_allocated_bytes + count * 2 }, ?_, rfl, ?_, h3, h4, h5, h6, h7, ?_⟩
  · simp only [allocate_indices]
    rw [if_neg (by rw [and_one_eq_mod]; omega), heq]
  · simpa [index_buf_capacity_bytes] using h1
  · show (vb.index_buffer_allocated_bytes + count * 2) % 2 = 0
    omega

theorem vertex_buf_grow_iterate (vb : VertexBuffer) (k : Nat) :
    (vertex_buf_grow^[k] vb).buffer_size_u32s = vb.buffer_size_u32s * 2 ^ k ∧
    (vertex_buf_grow^[k] vb).buffer.data = vb.buffer.data := by
  induction k with
  | zero => exact ⟨by simp, rfl⟩
  | succ k ih =>
    rw [Function.iterate_succ_apply']
    refine ⟨?_, ?_⟩
    · have hstep : (vertex_buf_grow (vertex_buf_grow^[k] vb)).buffer_size_u32s =
          (vertex_buf_grow^[k] vb).buffer_size_u32s * 2 := rfl
      rw [hstep, ih.1]
      ring
    · have hstep : (vertex_buf_grow (vertex_buf_grow^[k] vb)).buffer.data =
          (vertex_buf_grow^[k] vb).buffer.data := rfl
      rw [hstep, ih.2]

theorem index_buf_grow_iterate (vb : VertexBuffer) (k : Nat) :
    (index_buf_grow^[k] vb).index_buf_size_u16s = vb.index_buf_size_u16s * 2 ^ k ∧
    (index_buf_grow^[k] vb).index_buffer.data = vb.index_buffer.data := by
  induction k with
  | zero => exact ⟨by simp, rfl⟩
  | succ k ih =>
    rw [Function.iterate_succ_apply']
    refine ⟨?_, ?_⟩
    · have hstep : (index_buf_grow (index_buf_grow^[k] vb)).index_buf_size_u16s =
          (index_buf_grow^[k] vb).index_buf_size_u16s * 2 := rfl
      rw [hstep, ih.1]
      ring
    · have hstep : (index_buf_grow (index_buf_grow^[k] vb)).index_buffer.data =
          (index_buf_grow^[k] vb).index_buffer.data := rfl
      rw [hstep, ih.2]

/-- C4 (amended): for either arena kind, `allocate` returns the pre-call
allocated offset as the view's byte offset together with a view of exactly
`n` elements and establishes
`new_allocated_offset = old_allocated_offset + n * element_size` (element
size 4 for vertex floats, 2 for index u16s) — where for the vertex arena
`n` is the element count the allocator computes in u32,
`vertex_count * floats_per_vertex` wrapping at `2 ^ 32` (for requests
whose product is in u32 range this is exactly
`vertex_count * floats_per_vertex`; for larger requests the source wraps,
see the counterexample), and for the index arena `n` is the requested
count. `n = 0` is legal and yields a zero-length view at a valid offset,
and the new allocated offset is committed only after any needed growth has
completed (it never exceeds the grown capacity). Stated under the arena
invariants: an aligned pre-call offset and a positive capacity (with zero
capacity the source growth loop does not terminate). -/
theorem claim_C4 :
    (∀ (vb : VertexBuffer) (floats_per_vertex vertex_count : Nat),
      vb.allocated_size_bytes % 4 = 0 → 0 < vb.buffer_size_u32s →
      ∃ vb', allocate_vertices vb floats_per_vertex vertex_count =
          .ok vb' { byte_offset := vb.allocated_size_bytes,
                    length := vertex_count * floats_per_vertex % 2 ^ 32 } ∧
        vb'.allocated_size_bytes =
          vb.allocated_size_bytes + vertex_count * floats_per_vertex % 2 ^ 32 * 4 ∧
        vb'.allocated_size_bytes ≤ vertex_buf_capacity_bytes vb') ∧
    (∀ (vb : VertexBuffer) (count : Nat),
      vb.index_buffer_allocated_bytes % 2 = 0 → 0 < vb.index_buf_size_u16s →
      ∃ vb', allocate_indices vb count =
          .ok vb' { byte_offset := vb.index_buffer_allocated_bytes, length := count } ∧
        vb'.index_buffer_allocated_bytes = vb.index_buffer_allocated_bytes + count * 2 ∧
        vb'.index_buffer_allocated_bytes ≤ index_buf_capacity_bytes vb') := by
  constructor
  · intro vb floats_per_vertex vertex_count h1 h2
    obtain ⟨vb', heq, ha, hb, _⟩ := allocate_vertices_spec vb floats_per_vertex vertex_count h1 h2
    exact ⟨vb', heq, ha, hb⟩
  · intro vb count h1 h2
    obtain ⟨vb', heq, ha, hb, _⟩ := allocate_indices_spec vb count h1 h2
    exact ⟨vb', heq, ha, hb⟩

/-- C5: every arena grow step exactly doubles the capacity and sets the
heap-backed flag to 1 on that step — on every growth, not only the first
(after `k + 1` grow steps the flag is 1 regardless of `k`); consequently
after any number of grow steps the capacity is the original capacity times
a power of two, and the arena contents are preserved across growth. -/
theorem claim_C5 (vb : VertexBuffer) (k : Nat) :
    (vertex_buf_grow vb).buffer_size_u32s = vb.buffer_size_u32s * 2 ∧
    (vertex_buf_grow vb).heap_allocated = 1 ∧
    (vertex_buf_grow vb).buffer.data = vb.buffer.data ∧
    (index_buf_grow vb).index_buf_size_u16s = vb.index_buf_size_u16s * 2 ∧
    (index_buf_grow vb).index_buf_heap_allocated = 1 ∧
    (index_buf_grow vb).index_buffer.data = vb.index_buffer.data ∧
    (vertex_buf_grow^[k] vb).buffer_size_u32s = vb.buffer_size_u32s * 2 ^ k ∧
    (vertex_buf_grow^[k] vb).buffer.data = vb.buffer.data ∧
    (vertex_buf_grow^[k + 1] vb).heap_allocated = 1 ∧
    (index_buf_grow^[k] vb).index_buf_size_u16s = vb.index_buf_size_u16s * 2 ^ k ∧
    (index_buf_grow^[k] vb).index_buffer.data = vb.index_buffer.data ∧
    (index_buf_grow^[k + 1] vb).index_buf_heap_allocated = 1 := by
  refine ⟨rfl, rfl, rfl, rfl, rfl, rfl,
    (vertex_buf_grow_iterate vb k).1, (vertex_buf_grow_iterate vb k).2, ?_,
    (index_buf_grow_iterate vb k).1, (index_buf_grow_iterate vb k).2, ?_⟩
  · rw [Function.iterate_succ_apply']
    rfl
  · rw [Function.iterate_succ_apply']
    rfl

/-- C6: every arena allocation asserts, fatally and before any growth,
that the pre-growth allocated offset satisfies its kind's alignment
invariant (a multiple of 4 bytes for the vertex arena, 2 for the index
arena): the allocation result is `badAlignment` — which carries no state,
the operation terminates rather than proceed — exactly when the pre-call
offset is misaligned, so under an aligned precondition the assertion
branch is unreachable. -/
theorem claim_C6 :
    (∀ (vb : VertexBuffer) (floats_per_vertex vertex_count : Nat),
      allocate_vertices vb floats_per_vertex vertex_count = .badAlignment ↔
        vb.allocated_size_bytes % 4 ≠ 0) ∧
    (∀ (vb : VertexBuffer) (count : Nat),
      allocate_indices vb count = .badAlignment ↔
        vb.index_buffer_allocated_bytes % 2 ≠ 0) := by
  constructor
  · intro vb floats_per_vertex vertex_count
    constructor
    · intro h
      by_contra hmod
      simp only [allocate_vertices] at h
      rw [and_three_eq_mod] at h
      rw [if_neg (by omega)] at h
      rcases hgw : vertex_grow_while
          (vb.allocated_size_bytes + vertex_count * floats_per_vertex % 2 ^ 32 * 4) vb
          (vb.allocated_size_bytes + vertex_count * floats_per_vertex % 2 ^ 32 * 4)
        with _ | vbg
      · rw [hgw] at h
        exact AllocResult.noConfusion h
      · rw [hgw] at h
        exact AllocResult.noConfusion h
    · intro hmod
      simp only [allocate_vertices]
      rw [and_three_eq_mod, if_pos hmod]
  · intro vb count
    constructor
    · intro h
      by_contra hmod
      simp only [allocate_indices] at h
      rw [and_one_eq_mod] at h
      rw [if_neg (by omega)] at h
      rcases hgw : index_grow_while (vb.index_buffer_allocated_bytes + count * 2) vb
          (vb.index_buffer_allocated_bytes + count * 2) with _ | vbg
      · rw [hgw] at h
        exact AllocResult.noConfusion h
      · rw [hgw] at h
        exact AllocResult.noConfusion h
    · intro hmod
      simp only [allocate_indices]
      rw [and_one_eq_mod, if_pos hmod]

/-- `b` extends `a` by append-only entries all at `layer`: the old prefix
is unchanged and every new entry carries `layer`. -/
def sort_extends (a b : RawVec DrawSort) (layer : Nat) : Prop :=
  a.length ≤ b.length ∧
  (∀ p, p < a.length → b.data p = a.data p) ∧
  (∀ p, a.length ≤ p → p < b.length → (b.data p).layer = layer)

theorem sort_extends_refl (a : RawVec DrawSort) (layer : Nat) : sort_extends a a layer :=
  ⟨Nat.le_refl _, fun _ _ => rfl, fun _ h1 h2 => absurd h2 (by omega)⟩

theorem sort_extends_trans {a b c : RawVec DrawSort} {layer : Nat}
    (hab : sort_extends a b layer) (hbc : sort_extends b c layer) :
    sort_extends a c layer := by
  obtain ⟨h1, h2, h3⟩ := hab
  obtain ⟨h4, h5, h6⟩ := hbc
  refine ⟨by omega, ?_, ?_⟩
  · intro p hp
    rw [h5 p (by omega), h2 p hp]
  · intro p hp1 hp2
    by_cases hb : p < b.length
    · rw [h5 p hb]
      exact h3 p hp1 hb
    · exact h6 p (by omega) hp2

theorem bw_vector_push_sort (v : RawVec DrawSort) (e : DrawSort) :
    sort_extends v (bw_vector_push v e) e.layer := by
  have hdata : (bw_vector_push v e).data = store v.data v.length e := by
    simp only [bw_vector_push]
    split <;> rfl
  have hlen : (bw_vector_push v e).length = v.length + 1 := rfl
  refine ⟨by omega, ?_, ?_⟩
  · intro p hp
    rw [hdata, store_other _ _ _ _ (by omega)]
  · intro p hp1 hp2
    rw [hlen] at hp2
    have hp : p = v.length := by omega
    rw [hdata, hp, store_same]

theorem new_draw_command_some_sort {commands : DrawCommands} {layer : Nat}
    {commands' : DrawCommands} {slot : Nat}
    (h : new_draw_command commands layer = some (commands', slot)) :
    sort_extends commands.draw_sort_vector commands'.draw_sort_vector layer := by
  simp only [new_draw_command] at h
  by_cases hc : commands.draw_command_count ≥ commands.capacity
  · rw [if_pos hc] at h
    exact Option.noConfusion h
  · rw [if_neg hc] at h
    simp only [Option.some.injEq, Prod.mk.injEq] at h
    obtain ⟨h1, _⟩ := h
    rw [← h1]
    exact bw_vector_push_sort commands.draw_sort_vector
      { layer := layer, index := commands.draw_sort_vector.length % 2 ^ 16,
        command := commands.draw_command_count }

/-- The draw-sort property of a `draw_egui_mesh_main` outcome, relative to
the pre-call state. -/
def main_sort_prop (layer : Nat) (st : EmitState) : MainResult → Prop
  | .ok st1 => sort_extends st.commands.draw_sort_vector st1.commands.draw_sort_vector layer
  | .outOfDrawCommands st1 =>
    sort_extends st.commands.draw_sort_vector st1.commands.draw_sort_vector layer
  | .fatal => True

/-- The draw-sort property of a `MeshResult`, relative to the pre-call
state. -/
def mesh_sort_prop (layer : Nat) (st : EmitState) : MeshResult → Prop
  | .ok st1 => sort_extends st.commands.draw_sort_vector st1.commands.draw_sort_vector layer
  | .err _ st1 => sort_extends st.commands.draw_sort_vector st1.commands.draw_sort_vector layer
  | .fatal => True

theorem draw_egui_mesh_main_sort (layer : Nat) (indices : List Nat) (vertices : List Vertex)
    (texture : Nat) (st : EmitState) (render_target : RenderTarget) :
    main_sort_prop layer st (draw_egui_mesh_main layer indices vertices texture st render_target) := by
  simp only [draw_egui_mesh_main]
  split
  · trivial
  · trivial
  split
  · trivial
  · trivial
  split
  · split
    · split
      · exact sort_extends_refl _ _
      · next commands1 slot hnd =>
          have hs := new_draw_command_some_sort hnd
          exact hs
    · trivial
  · trivial

theorem draw_mesh_list_sort (layer texture : Nat) (render_target : RenderTarget) :
    ∀ (subs : List SubMesh) (st : EmitState),
      mesh_sort_prop layer st (draw_mesh_list layer texture render_target subs st) := by
  intro subs
  induction subs with
  | nil => intro st; exact sort_extends_refl _ _
  | cons m rest ih =>
    intro st
    have hmain := draw_egui_mesh_main_sort layer m.indices m.vertices texture st render_target
    simp only [draw_mesh_list]
    split
    · next st1 hr =>
      rw [hr] at hmain
      have hrest := ih st1
      rcases hrest2 : draw_mesh_list layer texture render_target rest st1 with st2 | ⟨e, st2⟩ | _
      · rw [hrest2] at hrest
        exact sort_extends_trans hmain hrest
      · rw [hrest2] at hrest
        exact sort_extends_trans hmain hrest
      · trivial
    · next st1 hr =>
      rw [hr] at hmain
      exact hmain
    · trivial

theorem draw_egui_mesh_sort (layer : Nat) (textures : Textures) (mesh : Mesh)
    (st : EmitState) (render_target : RenderTarget) :
    mesh_sort_prop layer st (draw_egui_mesh layer textures mesh st render_target) := by
  simp only [draw_egui_mesh]
  split
  · exact sort_extends_refl _ _
  · next texture _ =>
    split
    · have hmain := draw_egui_mesh_main_sort layer mesh.indices mesh.vertices texture st
        render_target
      split
      · next st1 hr =>
        rw [hr] at hmain
        exact hmain
      · next st1 hr =>
        rw [hr] at hmain
        exact hmain
      · trivial
    · exact draw_mesh_list_sort layer texture render_target mesh.split st

theorem add_overlays_sort (textures : Textures) (render_target : RenderTarget) :
    ∀ (ps : List Primitive) (st st' : EmitState),
      add_overlays textures render_target ps st = some st' →
      sort_extends st.commands.draw_sort_vector st'.commands.draw_sort_vector 0x17 := by
  intro ps
  induction ps with
  | nil =>
    intro st st' h
    simp only [add_overlays, Option.some.injEq] at h
    rw [← h]
    exact sort_extends_refl _ _
  | cons p rest ih =>
    intro st st' h
    rcases p with m | _
    · simp only [add_overlays] at h
      have hmesh := draw_egui_mesh_sort 0x17 textures m st render_target
      split at h
      · next st1 hr =>
        rw [hr] at hmesh
        exact sort_extends_trans hmesh (ih st1 st' h)
      · next e st1 hr =>
        rw [hr] at hmesh
        exact sort_extends_trans hmesh (ih st1 st' h)
      · exact Option.noConfusion h
    · simp only [add_overlays] at h
      exact ih st st' h

/-- C10: every draw command emitted by this subsystem in a frame is
inserted at the single fixed layer 0x17 — for every mesh and sub-mesh, the
draw-sort entry appended for its command has `layer = 0x17` — and the
subsystem only appends to the draw-sort vector (the pre-existing entries
are unchanged), so all overlay commands share one compositing layer and
are ordered among themselves purely by insertion order. -/
theorem claim_C10 (textures : Textures) (render_target : RenderTarget)
    (ps : List Primitive) (st st' : EmitState)
    (h : add_overlays textures render_target ps st = some st') :
    st.commands.draw_sort_vector.length ≤ st'.commands.draw_sort_vector.length ∧
    (∀ p, p < st.commands.draw_sort_vector.length →
      st'.commands.draw_sort_vector.data p = st.commands.draw_sort_vector.data p) ∧
    (∀ p, st.commands.draw_sort_vector.length ≤ p →
      p < st'.commands.draw_sort_vector.length →
      (st'.commands.draw_sort_vector.data p).layer = 0x17) :=
  add_overlays_sort textures render_target ps st st' h

/-- C1 (amended): for a mesh of 65536 or more vertices, `draw_egui_mesh`
iterates over the sub-meshes of the split with the `?` operator, so one
failing sub-mesh (for example with `OutOfDrawCommands`) aborts the
remaining sub-meshes of that mesh: the split loop returns the first error
without processing the rest. A failing mesh or sub-mesh still does not
abort processing of subsequent meshes in the frame: `add_overlays` is the
full fold of the per-primitive step over every primitive, continuing past
every recoverable error. -/
theorem claim_C1_amended :
    (∀ (layer texture : Nat) (render_target : RenderTarget) (sm : SubMesh)
        (rest : List SubMesh) (st st' : EmitState),
      draw_egui_mesh_main layer sm.indices sm.vertices texture st render_target =
        .outOfDrawCommands st' →
      draw_mesh_list layer texture render_target (sm :: rest) st =
        .err .outOfDrawCommands st') ∧
    (∀ (textures : Textures) (render_target : RenderTarget) (ps : List Primitive)
        (st : EmitState),
      add_overlays textures render_target ps st =
        List.foldlM (prim_step textures render_target) st ps) := by
  constructor
  · intro layer texture render_target sm rest st st' h
    simp only [draw_mesh_list, h]
  · intro textures render_target ps
    induction ps with
    | nil => intro st; rfl
    | cons p rest ih =>
      intro st
      rw [List.foldlM_cons]
      rcases p with m | _
      · rcases hr : draw_egui_mesh 0x17 textures m st render_target with st1 | ⟨e, st1⟩ | _
        · have hl : add_overlays textures render_target (Primitive.mesh m :: rest) st =
              add_overlays textures render_target rest st1 := by
            simp only [add_overlays, hr]
          have hp : prim_step textures render_target st (Primitive.mesh m) = some st1 := by
            simp only [prim_step, hr]
          rw [hl, hp, ih st1]
          rfl
        · have hl : add_overlays textures render_target (Primitive.mesh m :: rest) st =
              add_overlays textures render_target rest st1 := by
            simp only [add_overlays, hr]
          have hp : prim_step textures render_target st (Primitive.mesh m) = some st1 := by
            simp only [prim_step, hr]
          rw [hl, hp, ih st1]
          rfl
        · have hl : add_overlays textures render_target (Primitive.mesh m :: rest) st =
              none := by
            simp only [add_overlays, hr]
          have hp : prim_step textures render_target st (Primitive.mesh m) = none := by
            simp only [prim_step, hr]
          rw [hl, hp]
          rfl
      · have hl : add_overlays textures render_target (Primitive.callback :: rest) st =
            add_overlays textures render_target rest st := by
          simp only [add_overlays]
        have hp : prim_step textures render_target st Primitive.callback = some st := rfl
        rw [hl, hp, ih st]
        rfl

theorem ceil_quad_facts (v i : Nat) (hv : v < 0x10000) (hi : i ≤ 6 * (2 ^ 27 - 1)) :
    v * 5 ≤ ceil_quad_count v i * 4 * 8 ∧
    i ≤ ceil_quad_count v i * 6 ∧
    ceil_quad_count v i = max (align4 (v % 2 ^ 32) / 4) (align6 (i % 2 ^ 32) / 6) ∧
    ceil_quad_count v i * 4 * 8 < 2 ^ 32 := by
  refine ⟨?_, ?_, ?_, ?_⟩
  · have hq1 : (v + 3) / 4 ≤ ceil_quad_count v i := Nat.le_max_left _ _
    have ha : v ≤ (v + 3) / 4 * 4 := by omega
    have hb : (v + 3) / 4 * 4 ≤ ceil_quad_count v i * 4 := Nat.mul_le_mul_right _ hq1
    have hc : v * 5 ≤ ceil_quad_count v i * 4 * 5 := by omega
    omega
  · have hq2 : (i + 5) / 6 ≤ ceil_quad_count v i := Nat.le_max_right _ _
    have ha : i ≤ (i + 5) / 6 * 6 := by omega
    have hb : (i + 5) / 6 * 6 ≤ ceil_quad_count v i * 6 := Nat.mul_le_mul_right _ hq2
    omega
  · rw [Nat.mod_eq_of_lt (by omega : v < 2 ^ 32), Nat.mod_eq_of_lt (by omega : i < 2 ^ 32),
      align4_eq _ (by omega), align6_eq]
    unfold ceil_quad_count
    congr 1 <;> omega
  · have ha : (v + 3) / 4 ≤ 2 ^ 27 - 1 := by omega
    have hb : (i + 5) / 6 ≤ 2 ^ 27 - 1 := by omega
    have hc : ceil_quad_count v i ≤ 2 ^ 27 - 1 := Nat.max_le.mpr ⟨ha, hb⟩
    omega

theorem draw_egui_mesh_main_run (layer : Nat) (indices : List Nat) (vertices : List Vertex)
    (texture : Nat) (st : EmitState) (render_target : RenderTarget) (qc : Nat)
    (hqc : qc =
      max (align4 (vertices.length % 2 ^ 32) / 4) (align6 (indices.length % 2 ^ 32) / 6))
    (hva : st.vertex_buf.allocated_size_bytes % 4 = 0)
    (hia : st.vertex_buf.index_buffer_allocated_bytes % 2 = 0)
    (hvc : 0 < st.vertex_buf.buffer_size_u32s)
    (hic : 0 < st.vertex_buf.index_buf_size_u16s)
    (hv5 : vertices.length * 5 ≤ qc * 4 * 8)
    (hi1 : indices.length ≤ qc * 6)
    (hnw : qc * 4 * 8 < 2 ^ 32) :
    ∃ vb5 : VertexBuffer,
      vb5.allocated_size_bytes = st.vertex_buf.allocated_size_bytes + qc * 4 * 8 * 4 ∧
      vb5.index_buffer_allocated_bytes =
        st.vertex_buf.index_buffer_allocated_bytes + qc * 6 * 2 ∧
      (∀ j (hj : j < indices.length),
        vb5.index_buffer.data (st.vertex_buf.index_buffer_allocated_bytes + 2 * j) =
          indices.get ⟨j, hj⟩ % 2 ^ 16) ∧
      (∀ j, indices.length ≤ j → j < qc * 6 →
        vb5.index_buffer.data (st.vertex_buf.index_buffer_allocated_bytes + 2 * j) = 0) ∧
      draw_egui_mesh_main layer indices vertices texture st render_target =
        (match new_draw_command st.commands layer with
         | none => .outOfDrawCommands { st with vertex_buf := vb5 }
         | some (commands1, slot) =>
           let cmd := populate_draw_command render_target texture
             ⟨st.vertex_buf.allocated_size_bytes, qc * 4 * 8⟩
             ⟨st.vertex_buf.index_buffer_allocated_bytes, qc * 6⟩ (qc * 4)
           let commands2 := { commands1 with commands := store commands1.commands slot cmd }
           .ok { vertex_buf := vb5, commands := commands2 }) := by
  subst hqc
  obtain ⟨vb1, heqA, hA1, hA2, hA3, hA4, hA5, hA6, hA7, hA8⟩ :=
    allocate_vertices_spec st.vertex_buf 8
      (max (align4 (vertices.length % 2 ^ 32) / 4) (align6 (indices.length % 2 ^ 32) / 6) * 4)
      hva hvc
  rw [Nat.mod_eq_of_lt hnw] at heqA hA1
  obtain ⟨vb2, heqB, hB1, hB2, hB3, hB4, hB5, hB6, hB7, hB8⟩ :=
    allocate_indices_spec vb1
      (max (align4 (vertices.length % 2 ^ 32) / 4) (align6 (indices.length % 2 ^ 32) / 6) * 6)
      (by rw [hA7]; exact hia) (by rw [hA5]; exact hic)
  rw [hA7] at heqB hB1
  refine ⟨{ vb2 with
      buffer := { vb2.buffer with data := vertex_set_map render_target vb2.buffer.data st.vertex_buf.allocated_size_bytes vertices }
      index_buffer := { vb2.index_buffer with data := zero_after (index_set_map vb2.index_buffer.data st.vertex_buf.index_buffer_allocated_bytes indices) st.vertex_buf.index_buffer_allocated_bytes (max (align4 (vertices.length % 2 ^ 32) / 4) (align6 (indices.length % 2 ^ 32) / 6) * 6) indices.length } },
    ?_, ?_, ?_, ?_, ?_⟩
  · show vb2.allocated_size_bytes = _
    rw [hB7, hA1]
  · show vb2.index_buffer_allocated_bytes = _
    rw [hB1]
  · intro j hj
    show zero_after
        (index_set_map vb2.index_buffer.data st.vertex_buf.index_buffer_allocated_bytes
          indices)
        st.vertex_buf.index_buffer_allocated_bytes _ indices.length
        (st.vertex_buf.index_buffer_allocated_bytes + 2 * j) = _
    have hbase : index_set_map vb2.index_buffer.data
        st.vertex_buf.index_buffer_allocated_bytes indices
        (st.vertex_buf.index_buffer_allocated_bytes + 2 * j) =
        indices.get ⟨j, hj⟩ % 2 ^ 16 := by
      have hjm : j < (indices.map (fun i => i % 2 ^ 16)).length := by
        rw [List.length_map]; exact hj
      have := write_seq_get (indices.map (fun i => i % 2 ^ 16)) vb2.index_buffer.data
        st.vertex_buf.index_buffer_allocated_bytes 2 j (by omega) hjm
      rw [index_set_map, this, List.get_map]
    rw [zero_after]
    split
    · rw [write_seq_below _ _ _ _ _ (by omega), hbase]
    · rw [hbase]
  · intro j hj1 hj2
    show zero_after
        (index_set_map vb2.index_buffer.data st.vertex_buf.index_buffer_allocated_bytes
          indices)
        st.vertex_buf.index_buffer_allocated_bytes _ indices.length
        (st.vertex_buf.index_buffer_allocated_bytes + 2 * j) = _
    rw [zero_after, if_pos (by omega)]
    have haddr : st.vertex_buf.index_buffer_allocated_bytes + 2 * j =
        (st.vertex_buf.index_buffer_allocated_bytes + 2 * indices.length) +
          2 * (j - indices.length) := by omega
    have hjr : j - indices.length <
        (List.replicate
          (max (align4 (vertices.length % 2 ^ 32) / 4) (align6 (indices.length % 2 ^ 32) / 6)
            * 6 - indices.length) (0 : Nat)).length := by
      rw [List.length_replicate]; omega
    rw [haddr, write_seq_get _ _ _ _ _ (by omega) hjr, List.get_replicate]
  · have hi1' : indices.length * 1 ≤
        max (align4 (vertices.length % 2 ^ 32) / 4) (align6 (indices.length % 2 ^ 32) / 6)
          * 6 := by omega
    simp only [draw_egui_mesh_main, heqA, heqB, hv5, hi1', if_true]

/-- C2: for every mesh with vertex count `v` and index count `i` (after any
split, so `v < 65536`, and with `i ≤ 6 * (2^27 - 1)` so that
`quad_count < 2^27` and none of the source's u32 products — in particular
the float count `quad_count*4*8` of `allocate_vertices` — can wrap; real
split output stays far below this bound), emission computes
`quad_count = max(ceil(v/4), ceil(i/6))` and allocates exactly
`quad_count*4` vertices (at 8 floats of 4 bytes each) and `quad_count*6`
two-byte indices from the arenas; the emitted draw command (written at the
slot that was the pre-call command count) has `allocated_vertex_count` and
`used_vertex_count` both `quad_count*4`; the first `i` index slots hold the
true indices (truncated to u16) and every slot from `i` up to
`quad_count*6` is zero-filled. Stated under the arena/command-list
invariants: aligned offsets, positive capacities, and a non-full command
list. -/
theorem claim_C2 (layer : Nat) (indices : List Nat) (vertices : List Vertex)
    (texture : Nat) (st : EmitState) (render_target : RenderTarget)
    (hv : vertices.length < 0x10000)
    (hi : indices.length ≤ 6 * (2 ^ 27 - 1))
    (hva : st.vertex_buf.allocated_size_bytes % 4 = 0)
    (hia : st.vertex_buf.index_buffer_allocated_bytes % 2 = 0)
    (hvc : 0 < st.vertex_buf.buffer_size_u32s)
    (hic : 0 < st.vertex_buf.index_buf_size_u16s)
    (hcmd : st.commands.draw_command_count < st.commands.capacity) :
    ∃ st', draw_egui_mesh_main layer indices vertices texture st render_target = .ok st' ∧
      st'.vertex_buf.allocated_size_bytes =
        st.vertex_buf.allocated_size_bytes +
          ceil_quad_count vertices.length indices.length * 4 * 8 * 4 ∧
      st'.vertex_buf.index_buffer_allocated_bytes =
        st.vertex_buf.index_buffer_allocated_bytes +
          ceil_quad_count vertices.length indices.length * 6 * 2 ∧
      (st'.commands.commands st.commands.draw_command_count).allocated_vertex_count =
        ceil_quad_count vertices.length indices.length * 4 ∧
      (st'.commands.commands st.commands.draw_command_count).used_vertex_count =
        ceil_quad_count vertices.length indices.length * 4 ∧
      (∀ j (hj : j < indices.length),
        st'.vertex_buf.index_buffer.data
          (st.vertex_buf.index_buffer_allocated_bytes + 2 * j) =
            indices.get ⟨j, hj⟩ % 2 ^ 16) ∧
      (∀ j, indices.length ≤ j →
        j < ceil_quad_count vertices.length indices.length * 6 →
        st'.vertex_buf.index_buffer.data
          (st.vertex_buf.index_buffer_allocated_bytes + 2 * j) = 0) := by
  obtain ⟨hv5, hi1, hq, hnw⟩ := ceil_quad_facts vertices.length indices.length hv hi
  obtain ⟨vb5, ha1, ha2, ha3, ha4, heq⟩ :=
    draw_egui_mesh_main_run layer indices vertices texture st render_target
      (ceil_quad_count vertices.length indices.length) hq hva hia hvc hic hv5 hi1 hnw
  clear hq
  have hnd : new_draw_command st.commands layer =
      some ({ st.commands with
          draw_command_count := (st.commands.draw_command_count + 1) % 2 ^ 16
          draw_sort_vector := bw_vector_push st.commands.draw_sort_vector
            { layer := layer, index := st.commands.draw_sort_vector.length % 2 ^ 16,
              command := st.commands.draw_command_count } },
        st.commands.draw_command_count) := by
    simp only [new_draw_command]
    rw [if_neg (by omega)]
  simp only [hnd] at heq
  refine ⟨_, heq, ha1, ha2, ?_, ?_, ha3, ha4⟩
  · simp only [store_same]
    rfl
  · simp only [store_same]
    rfl

/-- C3 (amended): an emit attempted when the draw-command list is already
at capacity fails with `OutOfDrawCommands` and leaves the command list —
in particular the draw-sort vector — unmutated; an emit whose texture id
is absent from the cache fails with `InvalidTexture` before anything is
touched, so no arena space is allocated; but it is not true that no arena
space is consumed by any failed emit: the arenas are bump-allocated before
the command slot is requested, so an `OutOfDrawCommands` failure has
already consumed `quad_count*4` vertices and `quad_count*6` indices of
arena space (see the counterexample). The exact arena-advance conclusions
are stated for `i ≤ 6 * (2^27 - 1)`, keeping `quad_count < 2^27` so the
source's u32 float-count product cannot wrap. -/
theorem claim_C3_amended :
    (∀ (layer : Nat) (textures : Textures) (mesh : Mesh) (st : EmitState)
        (render_target : RenderTarget) (texture : Nat),
      textures mesh.texture_id = some texture →
      mesh.vertices.length < 0x10000 →
      mesh.indices.length ≤ 6 * (2 ^ 27 - 1) →
      st.vertex_buf.allocated_size_bytes % 4 = 0 →
      st.vertex_buf.index_buffer_allocated_bytes % 2 = 0 →
      0 < st.vertex_buf.buffer_size_u32s →
      0 < st.vertex_buf.index_buf_size_u16s →
      st.commands.capacity ≤ st.commands.draw_command_count →
      ∃ st', draw_egui_mesh layer textures mesh st render_target =
          .err .outOfDrawCommands st' ∧
        st'.commands = st.commands ∧
        st'.vertex_buf.allocated_size_bytes =
          st.vertex_buf.allocated_size_bytes +
            ceil_quad_count mesh.vertices.length mesh.indices.length * 4 * 8 * 4 ∧
        st'.vertex_buf.index_buffer_allocated_bytes =
          st.vertex_buf.index_buffer_allocated_bytes +
            ceil_quad_count mesh.vertices.length mesh.indices.length * 6 * 2) ∧
    (∀ (layer : Nat) (textures : Textures) (mesh : Mesh) (st : EmitState)
        (render_target : RenderTarget),
      textures mesh.texture_id = none →
      draw_egui_mesh layer textures mesh st render_target =
        .err (.invalidTexture mesh.texture_id) st) := by
  constructor
  · intro layer textures mesh st render_target texture htex hv hi hva hia hvc hic hfull
    obtain ⟨hv5, hi1, hq, hnw⟩ :=
      ceil_quad_facts mesh.vertices.length mesh.indices.length hv hi
    obtain ⟨vb5, ha1, ha2, ha3, ha4, heq⟩ :=
      draw_egui_mesh_main_run layer mesh.indices mesh.vertices texture st render_target
        (ceil_quad_count mesh.vertices.length mesh.indices.length) hq hva hia hvc hic hv5 hi1
        hnw
    clear hq
    have hnd : new_draw_command st.commands layer = none := by
      simp only [new_draw_command]
      rw [if_pos (by omega)]
    simp only [hnd] at heq
    refine ⟨{ st with vertex_buf := vb5 }, ?_, rfl, ha1, ha2⟩
    simp only [draw_egui_mesh, htex]
    rw [if_pos hv]
    simp only [heq]
  · intro layer textures mesh st render_target htex
    simp only [draw_egui_mesh, htex]

/-- An all-zero `DrawCommand`, used as the initial contents of a concrete
command list. -/
def zero_draw_command : DrawCommand :=
  { render_target_id := 0, is_hd := 0, texture_ids := fun _ => 0, draw_mode := 0,
    shader_id := 0, vertex_buffer_offset_bytes := 0, index_buffer_offset_bytes := 0,
    allocated_vertex_count := 0, used_vertex_count := 0, unk3c := 0, blend_mode := 0,
    shader_constants := fun _ => 0 }

/-- A concrete host arena pair: 1000 u32s of vertex capacity, 1000 u16s of
index capacity, nothing allocated yet. -/
def test_arena : VertexBuffer :=
  { buffer := { data := fun _ => 0, length := 1000, capacity := 1000 }
    buffer_size_u32s := 1000
    heap_allocated := 0
    allocated_size_bytes := 0
    index_buffer := { data := fun _ => 0, length := 1000, capacity := 1000 }
    index_buf_size_u16s := 1000
    index_buf_heap_allocated := 0
    index_buffer_allocated_bytes := 0 }

/-- A concrete command list with the given fixed capacity and no commands
yet. -/
def test_commands (capacity : Nat) : DrawCommands :=
  { draw_command_count := 0
    capacity := capacity
    commands := fun _ => zero_draw_command
    draw_sort_vector :=
      { data := fun _ => { layer := 0, index := 0, command := 0 }, length := 0,
        capacity := 16 } }

/-- A concrete emitter state: fresh arenas plus a command list of the
given capacity (capacity 0 models a command list that is already full). -/
def test_state (capacity : Nat) : EmitState :=
  { vertex_buf := test_arena, commands := test_commands capacity }

def test_rt : RenderTarget := { id := 1, w_recip := 1 / 640, h_recip := 1 / 480 }

def test_vertex : Vertex := { pos := (1, 2), uv := (0, 0), color := 5 }

/-- A texture cache holding one texture: id 0 maps to native handle 7. -/
def test_textures : Textures := fun id => if id = 0 then some 7 else none

def sub1 : SubMesh := { indices := [0], vertices := [test_vertex] }

/-- A single-triangle mesh referencing texture 0. -/
def small_mesh : Mesh :=
  { texture_id := 0, indices := [0, 1, 2],
    vertices := [test_vertex, test_vertex, test_vertex], split := [] }

/-- A mesh with 65536 vertices (so the split path is taken) whose split
consists of two small sub-meshes. -/
def big_mesh : Mesh :=
  { texture_id := 0, indices := [], vertices := List.replicate 0x10000 test_vertex,
    split := [sub1, sub1] }

/-- The `DrawError` of a `MeshResult`, if any. -/
def mesh_result_err : MeshResult → Option DrawError
  | .ok _ => none
  | .err e _ => some e
  | .fatal => none

/-- The vertex-arena allocated offset observable in a `MeshResult`. -/
def mesh_result_vertex_allocated : MeshResult → Option Nat
  | .ok st => some st.vertex_buf.allocated_size_bytes
  | .err _ st => some st.vertex_buf.allocated_size_bytes
  | .fatal => none

/-- C3 counterexample: the claim says no arena space is observably
consumed by any failed emit, but emitting a single triangle into a full
command list fails with `OutOfDrawCommands` having already advanced the
vertex arena's allocated offset from 0 to 128 bytes (1 quad × 4 vertices ×
8 floats × 4 bytes). -/
theorem claim_C3_counterexample :
    mesh_result_err (draw_egui_mesh 0x17 test_textures small_mesh (test_state 0) test_rt) =
      some .outOfDrawCommands ∧
    mesh_result_vertex_allocated
      (draw_egui_mesh 0x17 test_textures small_mesh (test_state 0) test_rt) = some 128 ∧
    (test_state 0).vertex_buf.allocated_size_bytes = 0 ∧ (128 : Nat) ≠ 0 := by
  refine ⟨rfl, rfl, rfl, by omega⟩

/-- The element length of the view returned by an allocation, if any. -/
def alloc_result_length : AllocResult → Option Nat
  | .ok _ alloc => some alloc.length
  | .badAlignment => none
  | .outOfFuel => none

/-- The arena's vertex allocated offset after an allocation, if any. -/
def alloc_result_offset_after : AllocResult → Option Nat
  | .ok vb _ => some vb.allocated_size_bytes
  | .badAlignment => none
  | .outOfFuel => none

/-- C4 counterexample: the claim promises a view of exactly `n` elements
and an offset advance of `n * element_size` for every requested element
count, but the source computes the vertex float count as a u32 product:
requesting `vertex_count = 2 ^ 29` vertices of `floats_per_vertex = 8`
floats (mathematically `2 ^ 32` elements) wraps `float_count` to 0, so the
allocator returns a zero-length view and advances the allocated offset by
0 instead of `2 ^ 32 * 4` bytes. -/
theorem claim_C4_counterexample :
    alloc_result_length (allocate_vertices test_arena 8 (2 ^ 29)) = some 0 ∧
    alloc_result_offset_after (allocate_vertices test_arena 8 (2 ^ 29)) = some 0 ∧
    test_arena.allocated_size_bytes = 0 ∧
    (2 ^ 29 : Nat) * 8 ≠ 0 := by
  refine ⟨rfl, rfl, rfl, by norm_num⟩

/-- C1 counterexample: the claim says one failing sub-mesh does not
prevent the remaining sub-meshes of that mesh from being processed and
emitted. For a 65536-vertex mesh split into two one-quad sub-meshes drawn
into a full command list, the first sub-mesh fails with
`OutOfDrawCommands` after consuming 128 bytes of vertex arena, and the
`?` in the split loop stops there (final allocated offset 128); processing
each sub-mesh independently (`draw_mesh_list_independent`, following the
spec's words) would also process the second sub-mesh, reaching offset
256. -/
theorem claim_C1_counterexample :
    mesh_result_err (draw_egui_mesh 0x17 test_textures big_mesh (test_state 0) test_rt) =
      some .outOfDrawCommands ∧
    mesh_result_vertex_allocated
      (draw_egui_mesh 0x17 test_textures big_mesh (test_state 0) test_rt) = some 128 ∧
    mesh_result_vertex_allocated
      (draw_mesh_list_independent 0x17 7 test_rt big_mesh.split (test_state 0)) =
        some 256 ∧
    (128 : Nat) ≠ 256 := by
  have hlen : big_mesh.vertices.length = 0x10000 := by
    show (List.replicate 0x10000 test_vertex).length = 0x10000
    rw [List.length_replicate]
  have htex : test_textures big_mesh.texture_id = some 7 := rfl
  have hbig : draw_egui_mesh 0x17 test_textures big_mesh (test_state 0) test_rt =
      draw_mesh_list 0x17 7 test_rt big_mesh.split (test_state 0) := by
    simp only [draw_egui_mesh, htex, hlen]
    rw [if_neg (by norm_num)]
  rw [hbig]
  refine ⟨rfl, rfl, rfl, by omega⟩

/-- The state reached when drawing `sub1` into a full command list: the
first sub-mesh's `OutOfDrawCommands` failure state. -/
def c1_fail_state : EmitState :=
  match draw_egui_mesh_main 0x17 sub1.indices sub1.vertices 7 (test_state 0) test_rt with
  | .ok st => st
  | .outOfDrawCommands st => st
  | .fatal => test_state 0

theorem claim_C1_witness :
    draw_mesh_list 0x17 7 test_rt (sub1 :: [sub1]) (test_state 0) =
      .err .outOfDrawCommands c1_fail_state :=
  claim_C1_amended.1 0x17 7 test_rt sub1 [sub1] (test_state 0) c1_fail_state rfl

def c2_indices : List Nat := [0, 1, 2]

def c2_vertices : List Vertex := [test_vertex, test_vertex, test_vertex]

theorem claim_C2_witness :
    ∃ st', draw_egui_mesh_main 0x17 c2_indices c2_vertices 7 (test_state 16) test_rt =
        .ok st' ∧
      st'.vertex_buf.allocated_size_bytes =
        (test_state 16).vertex_buf.allocated_size_bytes +
          ceil_quad_count c2_vertices.length c2_indices.length * 4 * 8 * 4 ∧
      st'.vertex_buf.index_buffer_allocated_bytes =
        (test_state 16).vertex_buf.index_buffer_allocated_bytes +
          ceil_quad_count c2_vertices.length c2_indices.length * 6 * 2 ∧
      (st'.commands.commands (test_state 16).commands.draw_command_count).allocated_vertex_count =
        ceil_quad_count c2_vertices.length c2_indices.length * 4 ∧
      (st'.commands.commands (test_state 16).commands.draw_command_count).used_vertex_count =
        ceil_quad_count c2_vertices.length c2_indices.length * 4 ∧
      (∀ j (hj : j < c2_indices.length),
        st'.vertex_buf.index_buffer.data
          ((test_state 16).vertex_buf.index_buffer_allocated_bytes + 2 * j) =
            c2_indices.get ⟨j, hj⟩ % 2 ^ 16) ∧
      (∀ j, c2_indices.length ≤ j →
        j < ceil_quad_count c2_vertices.length c2_indices.length * 6 →
        st'.vertex_buf.index_buffer.data
          ((test_state 16).vertex_buf.index_buffer_allocated_bytes + 2 * j) = 0) :=
  claim_C2 0x17 c2_indices c2_vertices 7 (test_state 16) test_rt (by decide) (by decide)
    (by decide) (by decide) (by decide) (by decide) (by decide)

theorem claim_C3_witness :
    ∃ st', draw_egui_mesh 0x17 test_textures small_mesh (test_state 0) test_rt =
        .err .outOfDrawCommands st' ∧
      st'.commands = (test_state 0).commands ∧
      st'.vertex_buf.allocated_size_bytes =
        (test_state 0).vertex_buf.allocated_size_bytes +
          ceil_quad_count small_mesh.vertices.length small_mesh.indices.length * 4 * 8 * 4 ∧
      st'.vertex_buf.index_buffer_allocated_bytes =
        (test_state 0).vertex_buf.index_buffer_allocated_bytes +
          ceil_quad_count small_mesh.vertices.length small_mesh.indices.length * 6 * 2 :=
  claim_C3_amended.1 0x17 test_textures small_mesh (test_state 0) test_rt 7 rfl (by decide)
    (by decide) (by decide) (by decide) (by decide) (by decide) (by decide)

theorem claim_C4_witness :
    (∃ vb', allocate_vertices test_arena 8 0 =
        .ok vb' { byte_offset := test_arena.allocated_size_bytes,
                  length := 0 * 8 % 2 ^ 32 } ∧
      vb'.allocated_size_bytes = test_arena.allocated_size_bytes + 0 * 8 % 2 ^ 32 * 4 ∧
      vb'.allocated_size_bytes ≤ vertex_buf_capacity_bytes vb') ∧
    (∃ vb', allocate_indices test_arena 6 =
        .ok vb' { byte_offset := test_arena.index_buffer_allocated_bytes, length := 6 } ∧
      vb'.index_buffer_allocated_bytes = test_arena.index_buffer_allocated_bytes + 6 * 2 ∧
      vb'.index_buffer_allocated_bytes ≤ index_buf_capacity_bytes vb') :=
  ⟨claim_C4.1 test_arena 8 0 (by decide) (by decide),
   claim_C4.2 test_arena 6 (by decide) (by decide)⟩

/-- The state after one frame drawing `small_mesh` once. -/
def c10_state : EmitState :=
  match add_overlays test_textures test_rt [Primitive.mesh small_mesh] (test_state 16) with
  | some st => st
  | none => test_state 16

theorem claim_C10_witness :
    (test_state 16).commands.draw_sort_vector.length ≤
      c10_state.commands.draw_sort_vector.length ∧
    (∀ p, p < (test_state 16).commands.draw_sort_vector.length →
      c10_state.commands.draw_sort_vector.data p =
        (test_state 16).commands.draw_sort_vector.data p) ∧
    (∀ p, (test_state 16).commands.draw_sort_vector.length ≤ p →
      p < c10_state.commands.draw_sort_vector.length →
      (c10_state.commands.draw_sort_vector.data p).layer = 0x17) :=
  claim_C10 test_textures test_rt [Primitive.mesh small_mesh] (test_state 16) c10_state rfl

/-- C7: for every texture create and every partial-update operation, if
the pixel payload length is not exactly `4 * width * height` bytes
(RGBA8), the operation returns without the host texture entry point being
called (create also yields no texture); when the length is exactly
`4 * width * height`, the host create/update entry point is invoked.
Stated for sizes whose u32 pixel-count product does not overflow. -/
theorem claim_C7 (create_result : Option Nat) (size : Nat × Nat) (data : List Nat)
    (bilinear : Bool) (tex : OwnedBwTexture) (pos : Nat × Nat)
    (hsz : size.1 * size.2 < 2 ^ 32) :
    (data.length ≠ 4 * (size.1 * size.2) →
      OwnedBwTexture.new_rgba create_result size data bilinear = (none, false) ∧
      tex.update data pos size = false) ∧
    (data.length = 4 * (size.1 * size.2) →
      (OwnedBwTexture.new_rgba create_result size data bilinear).2 = true ∧
      tex.update data pos size = true) := by
  have hmod : size.1 * size.2 % 2 ^ 32 = size.1 * size.2 := Nat.mod_eq_of_lt hsz
  constructor
  · intro hne
    constructor
    · simp only [OwnedBwTexture.new_rgba, hmod]
      rw [if_pos hne]
    · simp only [OwnedBwTexture.update, hmod]
      rw [if_pos hne]
  · intro heq
    constructor
    · simp only [OwnedBwTexture.new_rgba, hmod]
      rw [if_neg (by omega)]
      cases create_result <;> rfl
    · simp only [OwnedBwTexture.update, hmod]
      rw [if_neg (by omega)]

theorem claim_C7_witness :
    ((List.replicate 15 (0 : Nat)).length ≠
        4 * (((2, 2) : Nat × Nat).1 * ((2, 2) : Nat × Nat).2) →
      OwnedBwTexture.new_rgba (some 7) (2, 2) (List.replicate 15 0) false = (none, false) ∧
      OwnedBwTexture.update ⟨7, 0, 0, 0⟩ (List.replicate 15 0) (0, 0) (2, 2) = false) ∧
    ((List.replicate 15 (0 : Nat)).length =
        4 * (((2, 2) : Nat × Nat).1 * ((2, 2) : Nat × Nat).2) →
      (OwnedBwTexture.new_rgba (some 7) (2, 2) (List.replicate 15 0) false).2 = true ∧
      OwnedBwTexture.update ⟨7, 0, 0, 0⟩ (List.replicate 15 0) (0, 0) (2, 2) = true) :=
  claim_C7 (some 7) (2, 2) (List.replicate 15 0) false ⟨7, 0, 0, 0⟩ (0, 0) (by decide)

/-- C8: the window-to-UI mapping computed by `window_pos_to_egui` is, for
nonzero window and screen dimensions, exactly the letterboxing transform
the claim describes (`spec_window_to_ui`): near-unity aspect ratio gives a
direct linear scale on both axes; `ratio < 1` offsets and scales the
horizontal axis by `ratio`, leaving the vertical axis linear; otherwise
the vertical axis is offset and scaled by `1/ratio`, with the horizontal
axis linear. -/
theorem claim_C8 (window_size screen_size : Nat × Nat) (x y : Int)
    (hww : 0 < window_size.1) (hwh : 0 < window_size.2)
    (hsw : 0 < screen_size.1) (hsh : 0 < screen_size.2) :
    window_pos_to_egui window_size screen_size x y =
      spec_window_to_ui window_size screen_size x y := by
  simp only [window_pos_to_egui, spec_window_to_ui]
  split_ifs with h1 h2 <;> simp only [Prod.mk.injEq] <;> constructor <;> ring

theorem claim_C8_witness :
    (0 : Nat) < ((100, 100) : Nat × Nat).1 ∧
    window_pos_to_egui (100, 100) (200, 100) 5 7 =
      spec_window_to_ui (100, 100) (200, 100) 5 7 :=
  ⟨by decide,
   claim_C8 (100, 100) (200, 100) 5 7 (by decide) (by decide) (by decide) (by decide)⟩

/-- C9: a `WM_SIZE` message whose decoded width or height is zero or
negative leaves the stored window size unchanged, so starting from the
initial `(100, 100)` both window-size components remain positive after any
sequence of window messages, and the divisors `window_w`/`window_h` that
`window_pos_to_egui` forms from them are never zero. -/
theorem claim_C9 (msgs : List WinMsg) :
    0 < (msgs.foldl window_proc_size overlay_new_window_size).1 ∧
    0 < (msgs.foldl window_proc_size overlay_new_window_size).2 ∧
    (((msgs.foldl window_proc_size overlay_new_window_size).1 : ℚ)) ≠ 0 ∧
    (((msgs.foldl window_proc_size overlay_new_window_size).2 : ℚ)) ≠ 0 := by
  have step : ∀ (size : Nat × Nat) (msg : WinMsg), 0 < size.1 → 0 < size.2 →
      0 < (window_proc_size size msg).1 ∧ 0 < (window_proc_size size msg).2 := by
    intro size msg h1 h2
    rcases msg with lparam | _
    · simp only [window_proc_size]
      split
      · next hwh =>
        split
        · next hne =>
          obtain ⟨hw0, hh0⟩ := hwh
          obtain ⟨hwne, hhne⟩ := hne
          constructor <;> omega
        · exact ⟨h1, h2⟩
      · exact ⟨h1, h2⟩
    · exact ⟨h1, h2⟩
  have main : ∀ (init : Nat × Nat), 0 < init.1 → 0 < init.2 →
      0 < (msgs.foldl window_proc_size init).1 ∧
      0 < (msgs.foldl window_proc_size init).2 := by
    induction msgs with
    | nil => intro init h1 h2; exact ⟨h1, h2⟩
    | cons m rest ih =>
      intro init h1 h2
      rw [List.foldl_cons]
      obtain ⟨g1, g2⟩ := step init m h1 h2
      exact ih _ g1 g2
  obtain ⟨m1, m2⟩ := main overlay_new_window_size (by decide) (by decide)
  refine ⟨m1, m2, ?_, ?_⟩
  · exact Nat.cast_ne_zero.mpr (by omega)
  · exact Nat.cast_ne_zero.mpr (by omega)

end ShieldBattery
